import Mathlib

/-!
# Verification of the fcc (Firebase Crashlytics CLI) core logic

This file gives a shallow embedding, in Lean 4, of the decision-bearing parts
of the `firebase-crashlytics-cli` repository:

* the token cache (`src/auth/firebase-auth.ts`): `readRefreshToken`,
  `refreshAccessToken`, `getAccessToken`;
* the config store (`src/utils/config.ts`): `readConfig`, `writeConfig`,
  `readGlobalConfig`, `writeGlobalConfig`, `getMergedConfig`,
  `coerceConfigValue`, `KNOWN_CONFIG_KEYS`;
* the project/app resolver (`src/api/firebase-project.ts`): `firebaseApiGet`,
  `readFirebaseRc`, `resolveProject`, `listApps`, `resolveApp`;
* the Crashlytics API client (`src/api/crashlytics-client.ts`):
  `CrashlyticsClient.request` and `CrashlyticsClient.getIssue`.

External effects (file reads, HTTP fetches, the system clock) are passed in
explicitly: each function receives the outcome the runtime would have produced
(file content or read failure, HTTP response or network failure, the current
time in epoch milliseconds) and the functions additionally return a trace of
the effects they performed, so that "no network call is made" is a provable
statement about the trace.  JavaScript `Error` values are modelled by their
message strings; JSON objects are modelled as ordered association lists, which
is how V8 presents object properties.
-/

set_option linter.unusedVariables false

namespace Fcc

/-! ## String containment

`hasSub hay needle` decides whether `needle` occurs contiguously in `hay`.
It stands in for JavaScript's `String.prototype.includes`, used to state the
"the error message contains X" claims.  `isLead needle hay` is the auxiliary
"needle starts hay" test. -/

def isLead : List Char → List Char → Bool
  | [], _ => true
  | _ :: _, [] => false
  | a :: as, b :: bs => a == b && isLead as bs

def hasSub : List Char → List Char → Bool
  | [], needle => needle.isEmpty
  | a :: as, needle => isLead needle (a :: as) || hasSub as needle

/-- `strContains hay needle = true` iff `needle` occurs in `hay`. -/
def strContains (hay needle : String) : Bool :=
  hasSub hay.data needle.data

/-! ## JavaScript value model

Config files hold JSON scalars: strings and numbers.  JavaScript numbers are
IEEE doubles; the values reachable here (results of `Number(...)` on decimal
literals) are modelled as rationals.  `jsTruthy`/`jsTruthyVal` model the
truthiness tests (`if (!x)`) the source applies to optional strings and to
values read from config files: `undefined`, `""` and `0` are falsy. -/

inductive JsValue where
  | str (s : String)
  | num (q : ℚ)
deriving DecidableEq, Repr

def JsValue.typeOf : JsValue → String
  | .str _ => "string"
  | .num _ => "number"

def jsValueToString : JsValue → String
  | .str s => s
  | .num q => toString q

def jsTruthy : Option String → Bool
  | none => false
  | some s => if s = "" then false else true

/-- Keeps a truthy optional string, turns a falsy one into `none`. -/
def truthyOpt : Option String → Option String
  | none => none
  | some s => if s = "" then none else some s

/-- Keeps a truthy optional JS value, turns a falsy one into `none`. -/
def truthyVal : Option JsValue → Option JsValue
  | none => none
  | some (.str s) => if s = "" then none else some (.str s)
  | some (.num q) => if q = 0 then none else some (.num q)

/-! ### `Number(...)`

`coerceConfigValue` calls the JavaScript builtin `Number` on its input.
`jsNumber` models that builtin on the decimal fragment it is used with:
surrounding whitespace is ignored, the empty string converts to `0`, an
optional sign followed by decimal digits with an optional fractional part
converts to the corresponding rational, and anything else is `NaN`
(represented as `none`).  Exotic JS forms (hex, exponents, `Infinity`) are
outside the modelled fragment. -/

def isJsSpace (c : Char) : Bool :=
  c == ' ' || c == '\t' || c == '\n' || c == '\r'

def isDigitChar (c : Char) : Bool :=
  '0' ≤ c && c ≤ '9'

def digitsToNat (ds : List Char) : Nat :=
  ds.foldl (fun a c => a * 10 + (c.toNat - 48)) 0

def jsNumberCore (cs : List Char) : Option ℚ :=
  let (neg, rest) :=
    match cs with
    | '-' :: r => (true, r)
    | '+' :: r => (false, r)
    | r => (false, r)
  let intPart := rest.takeWhile isDigitChar
  let rest2 := rest.dropWhile isDigitChar
  let mag : Option ℚ :=
    match rest2 with
    | [] => if intPart.isEmpty then none else some (digitsToNat intPart : ℚ)
    | '.' :: frac =>
      if frac.all isDigitChar && !(intPart.isEmpty && frac.isEmpty) then
        some ((digitsToNat intPart : ℚ) + (digitsToNat frac : ℚ) / (10 ^ frac.length : ℚ))
      else none
    | _ => none
  mag.map (fun q => if neg then -q else q)

def jsNumber (s : String) : Option ℚ :=
  let cs := ((s.data.dropWhile isJsSpace).reverse.dropWhile isJsSpace).reverse
  if cs.isEmpty then some 0 else jsNumberCore cs

/-! ## JSON objects as ordered association lists

A parsed JSON object is a list of key/value pairs in property order (keys are
unique in any object produced by `JSON.parse`).  `objGet` is property lookup;
`objSet` is `obj[key] = value`: it overwrites an existing property in place
and appends a new one at the end, exactly as V8 does. -/

def Obj : Type := List (String × JsValue)

instance : DecidableEq Obj := inferInstanceAs (DecidableEq (List (String × JsValue)))

def objGet : Obj → String → Option JsValue
  | [], _ => none
  | (k', v) :: t, k => if k' = k then some v else objGet t k

def objSet : Obj → String → JsValue → Obj
  | [], k, v => [(k, v)]
  | (k', w) :: t, k, v => if k' = k then (k, v) :: t else (k', w) :: objSet t k v

/-! ## Config store (`src/utils/config.ts`)

A config file on disk is modelled by `FileContent`: it is absent, unreadable
(read error other than ENOENT, with the underlying message), present but not
valid JSON, or a parsed JSON object.  The pair of files the store manages is
a `Store`.  Paths are built from the working directory / home directory the
process would observe. -/

inductive FileContent where
  | absent
  | readFailed (msg : String)
  | corrupt
  | obj (o : Obj)

/-- `join(process.cwd(), ".fcc.json")` — `getLocalConfigPath`. -/
def getLocalConfigPath (cwd : String) : String :=
  cwd ++ "/.fcc.json"

/-- `join(homedir(), ".config", "fcc", "config.json")` — `getGlobalConfigPath`. -/
def getGlobalConfigPath (home : String) : String :=
  home ++ "/.config/fcc/config.json"

/-- `readConfig`: missing file is `none`, other read errors and parse errors
throw with a message naming the local config path. -/
def readConfig (cwd : String) (fc : FileContent) : Except String (Option Obj) :=
  match fc with
  | .absent => .ok none
  | .readFailed m =>
    .error ("Failed to read local config at " ++ getLocalConfigPath cwd ++ ": " ++ m)
  | .corrupt =>
    .error ("Failed to parse local config at " ++ getLocalConfigPath cwd ++
      ". The file may be corrupted.")
  | .obj o => .ok (some o)

/-- `readGlobalConfig`: same shape, naming the global config path. -/
def readGlobalConfig (home : String) (fc : FileContent) : Except String (Option Obj) :=
  match fc with
  | .absent => .ok none
  | .readFailed m =>
    .error ("Failed to read global config at " ++ getGlobalConfigPath home ++ ": " ++ m)
  | .corrupt =>
    .error ("Failed to parse global config at " ++ getGlobalConfigPath home ++
      ". The file may be corrupted.")
  | .obj o => .ok (some o)

/-- The two files the config store owns. -/
structure Store where
  localFile : FileContent
  globalFile : FileContent

/-- `writeConfig`: read the existing local file (or start from `{}`), set one
key, write the whole object back to the local file.  The global file is not
touched. -/
def writeConfig (cwd : String) (st : Store) (key : String) (value : JsValue) :
    Except String Store :=
  match readConfig cwd st.localFile with
  | .error e => .error e
  | .ok existing =>
    .ok { st with localFile := .obj (objSet (existing.getD []) key value) }

/-- `writeGlobalConfig`: `mkdir -p` of the parent directory has no observable
effect in this model; then read-modify-write of the global file only. -/
def writeGlobalConfig (home : String) (st : Store) (key : String) (value : JsValue) :
    Except String Store :=
  match readGlobalConfig home st.globalFile with
  | .error e => .error e
  | .ok existing =>
    .ok { st with globalFile := .obj (objSet (existing.getD []) key value) }

/-- JavaScript object spread `{ ...g, ...l }`: start from the empty object and
assign every property of `g`, then every property of `l`. -/
def mergeObjects (g l : Obj) : Obj :=
  l.foldl (fun acc p => objSet acc p.1 p.2)
    (g.foldl (fun acc p => objSet acc p.1 p.2) [])

/-- `getMergedConfig`: global config overridden by local config. -/
def getMergedConfig (cwd home : String) (st : Store) : Except String Obj :=
  match readGlobalConfig home st.globalFile with
  | .error e => .error e
  | .ok g =>
    match readConfig cwd st.localFile with
    | .error e => .error e
    | .ok l => .ok (mergeObjects (g.getD []) (l.getD []))

/-- `KNOWN_CONFIG_KEYS`: the declared scalar type of each known key. -/
def KNOWN_CONFIG_KEYS (key : String) : Option String :=
  if key = "project" then some "string"
  else if key = "projectId" then some "string"
  else if key = "projectNumber" then some "string"
  else if key = "app" then some "string"
  else if key = "appId" then some "string"
  else if key = "defaultType" then some "string"
  else if key = "defaultLimit" then some "number"
  else none

/-- `coerceConfigValue`: numeric keys go through `Number(value)` and throw on
`NaN`; all other keys (including unknown ones) keep the string. -/
def coerceConfigValue (key value : String) : Except String JsValue :=
  match KNOWN_CONFIG_KEYS key with
  | some "number" =>
    match jsNumber value with
    | none =>
      .error ("Value for \"" ++ key ++ "\" must be a number, got \"" ++ value ++ "\".")
    | some q => .ok (.num q)
  | _ => .ok (.str value)

/-! ### Lookup law for the object spread -/

/-! ## Token cache (`src/auth/firebase-auth.ts`)

The module-level mutable variables `cachedAccessToken` / `tokenExpiresAt`
become an explicit `AuthState` threaded through the functions.  The sibling
`firebase-tools.json` file read is modelled by `CfgFileRead` (the outcome the
runtime would produce: ENOENT, another read error, a JSON parse failure, or a
parsed object whose `tokens.refresh_token` chain yielded the given optional
string).  The OAuth token exchange is modelled by `TokenFetch`, carrying the
parse outcomes of the response body both as an error object and as a token
object — the source parses whichever branch it takes.  Times are epoch
milliseconds (`Int`). -/

def FIREBASE_CLIENT_ID : String :=
  "563584335869-fgrhgmd47bqnekij5i8b5pr03ho849e6.apps.googleusercontent.com"

def TOKEN_ENDPOINT : String := "https://oauth2.googleapis.com/token"

structure AuthState where
  cachedAccessToken : Option String
  tokenExpiresAt : Int
deriving DecidableEq, Repr

inductive CfgFileRead where
  | missing
  | readFailed (msg : String)
  | malformed
  | parsed (refreshTokenField : Option String)

/-- `error_description` is optional in the OAuth error body. -/
structure TokenErrorBody where
  error : String
  errorDescription : Option String

/-- `access_token` may be absent from a 2xx body; `expires_in` is seconds. -/
structure TokenOkBody where
  accessToken : Option String
  expiresIn : Int

inductive TokenFetch where
  | netErr (msg : String)
  | resp (status : Nat) (errParse : Option TokenErrorBody) (okParse : Option TokenOkBody)

/-- Effects `getAccessToken` can perform: reading the sibling config file and
issuing the token-refresh network call. -/
inductive AuthEff where
  | fsRead
  | netCall
deriving DecidableEq, Repr

/-- `fetch`'s `response.ok`: status in the 2xx range. -/
def httpOk (status : Nat) : Bool :=
  decide (200 ≤ status) && decide (status < 300)

/-- `join(homedir(), ".config", "configstore", "firebase-tools.json")`. -/
def getFirebaseConfigPath (home : String) : String :=
  home ++ "/.config/configstore/firebase-tools.json"

/-- `readRefreshToken`: extracts `tokens.refresh_token` from the firebase-tools
config, with the distinct error messages of the source for a missing file, an
unreadable file, a corrupt file, and an absent (or falsy) token field. -/
def readRefreshToken (home : String) (file : CfgFileRead) : Except String String :=
  match file with
  | .missing =>
    .error "Firebase CLI config not found. Run `firebase login` first to authenticate."
  | .readFailed m =>
    .error ("Failed to read Firebase CLI config at " ++ getFirebaseConfigPath home ++
      ": " ++ m)
  | .malformed =>
    .error ("Failed to parse Firebase CLI config at " ++ getFirebaseConfigPath home ++
      ". The file may be corrupted. Try running `firebase login` again.")
  | .parsed rt =>
    match rt with
    | none =>
      .error "No refresh token found in Firebase CLI config. Run `firebase login` first to authenticate."
    | some s =>
      if s = "" then
        .error "No refresh token found in Firebase CLI config. Run `firebase login` first to authenticate."
      else .ok s

/-- `refreshAccessToken`: exchanges the refresh token at the OAuth endpoint.
On success the cache is overwritten with the new token and
`now + (expires_in - 60) * 1000`; every failure leaves the state untouched. -/
def refreshAccessToken (refreshToken : String) (st : AuthState) (now : Int)
    (f : TokenFetch) : Except String String × AuthState :=
  match f with
  | .netErr m =>
    (.error ("Network error while refreshing access token: " ++ m), st)
  | .resp status errParse okParse =>
    if httpOk status then
      match okParse with
      | none =>
        (.error "Failed to parse token response from Google OAuth2 endpoint.", st)
      | some body =>
        match body.accessToken with
        | none =>
          (.error "No access token returned from Google OAuth2 endpoint. Try running `firebase login` again.", st)
        | some tok =>
          if tok = "" then
            (.error "No access token returned from Google OAuth2 endpoint. Try running `firebase login` again.", st)
          else
            (.ok tok,
             { cachedAccessToken := some tok,
               tokenExpiresAt := now + (body.expiresIn - 60) * 1000 })
    else
      let msg :=
        match errParse with
        | none => "Token refresh failed with status " ++ toString status
        | some eb =>
          if eb.error = "invalid_grant" then
            "Firebase token is invalid or expired. Run `firebase login` again to re-authenticate."
          else
            "Token refresh failed: " ++ eb.error ++
              (match eb.errorDescription with
               | some d => " â€” " ++ d
               | none => "")
      (.error msg, st)

/-- `getAccessToken`: returns the cached token while `now < tokenExpiresAt`,
otherwise reads the refresh token from disk and performs one refresh call.
The third component is the trace of effects performed. -/
def getAccessToken (st : AuthState) (now : Int) (home : String)
    (file : CfgFileRead) (f : TokenFetch) :
    Except String String × AuthState × List AuthEff :=
  if jsTruthy st.cachedAccessToken ∧ now < st.tokenExpiresAt then
    (.ok (st.cachedAccessToken.getD ""), st, [])
  else
    match readRefreshToken home file with
    | .error e => (.error e, st, [.fsRead])
    | .ok rt =>
      let (r, st') := refreshAccessToken rt st now f
      (r, st', [.fsRead, .netCall])

/-! ## Firebase Management API and resolvers (`src/api/firebase-project.ts`)

`firebaseApiGet` is the authenticated GET helper with its status-code → error
mapping.  The HTTP outcome for one request is a `MgmtFetch α`: a network
failure, or a response with a status, the raw body text, and the parse outcome
of the body as an `α`.  The resolvers receive the outcomes of the file reads
and a function from request paths to HTTP outcomes, and return a trace
(`MgmtEff`) recording the file reads and the API paths requested, so that
"exactly one Management API call" is a statement about the trace.  Obtaining
the bearer token is not part of the Management API traffic and is assumed to
succeed here. -/

structure FirebaseProject where
  projectId : String
  projectNumber : String
  displayName : String
  name : String
deriving DecidableEq, Repr

structure AndroidApp where
  appId : String
  displayName : Option String
  packageName : Option String
deriving DecidableEq, Repr

structure IosApp where
  appId : String
  displayName : Option String
  bundleId : Option String
deriving DecidableEq, Repr

/-- The merged app record (`FirebaseApp` in the source); `platform` is the
string literal the source uses. -/
structure FirebaseApp where
  platform : String
  appId : String
  displayName : String
  packageName : Option String
  bundleId : Option String
deriving DecidableEq, Repr

inductive MgmtFetch (α : Type) where
  | netErr (msg : String)
  | resp (status : Nat) (bodyText : String) (parsed : Option α)

inductive MgmtEff where
  | rcFileRead
  | cfgFileRead
  | apiGet (path : String)
deriving DecidableEq, Repr

def countApiGets (tr : List MgmtEff) : Nat :=
  (tr.filter fun e => match e with | .apiGet _ => true | _ => false).length

/-- `firebaseApiGet`: status-code mapping of the Management API helper. -/
def firebaseApiGet {α : Type} (f : MgmtFetch α) : Except String α :=
  match f with
  | .netErr m => .error ("Network error while calling Firebase API: " ++ m)
  | .resp status body parsed =>
    if httpOk status then
      match parsed with
      | none => .error "Failed to parse JSON response from the Firebase API."
      | some a => .ok a
    else
      match status with
      | 401 =>
        .error "Authentication failed. Your access token is invalid or expired. Try running `firebase login` again."
      | 403 =>
        .error "Access denied. You do not have permission to access this Firebase project."
      | 404 =>
        .error ("Firebase project not found. Verify the project ID is correct. API responded: " ++ body)
      | s => .error ("Firebase API error (" ++ toString s ++ "): " ++ body)

/-- Outcome of reading `.firebaserc` in the working directory, carrying
`rc.projects?.default` when the file parsed. -/
inductive RcRead where
  | missing
  | readFailed (msg : String)
  | malformed
  | parsed (defaultProject : Option String)

/-- `readFirebaseRc`: missing file → `null`; other read and parse failures
throw. -/
def readFirebaseRc (rc : RcRead) : Except String (Option String) :=
  match rc with
  | .missing => .ok none
  | .readFailed m => .error ("Failed to read .firebaserc: " ++ m)
  | .malformed => .error "Failed to parse .firebaserc. The file may be corrupted."
  | .parsed d => .ok d

/-- Environment seen by `resolveProject`: the `.firebaserc` outcome, the local
`.fcc.json` content, the working directory, and the Management API responses
keyed by request path. -/
structure ResolveEnv where
  rc : RcRead
  fcc : FileContent
  cwd : String
  projectApi : String → MgmtFetch FirebaseProject

def noProjectMsg : String :=
  "No project specified. Use --project <projectId>, `fcc set project <id>`, or run `fcc projects list` to see available projects."

/-- The final step of `resolveProject`: one Management API call at
`projects/{projectId}`, whose response is re-packed into a
`FirebaseProject`. -/
def resolveProjectFetch (env : ResolveEnv) (pid : String) (tr : List MgmtEff) :
    Except String FirebaseProject × List MgmtEff :=
  let path := "projects/" ++ pid
  ((firebaseApiGet (env.projectApi path)).map
     (fun p =>
       { projectId := p.projectId, projectNumber := p.projectNumber,
         displayName := p.displayName, name := p.name }),
   tr ++ [.apiGet path])

/-- `resolveProject`: explicit flag, else `.firebaserc` default, else local
config `project` key; any found id is exchanged at the Management API. -/
def resolveProject (explicit : Option String) (env : ResolveEnv) :
    Except String FirebaseProject × List MgmtEff :=
  match truthyOpt explicit with
  | some pid => resolveProjectFetch env pid []
  | none =>
    match readFirebaseRc env.rc with
    | .error e => (.error e, [.rcFileRead])
    | .ok d =>
      match truthyOpt d with
      | some pid => resolveProjectFetch env pid [.rcFileRead]
      | none =>
        match readConfig env.cwd env.fcc with
        | .error e => (.error e, [.rcFileRead, .cfgFileRead])
        | .ok cfgOpt =>
          match truthyVal (cfgOpt.bind fun o => objGet o "project") with
          | some v =>
            resolveProjectFetch env (jsValueToString v) [.rcFileRead, .cfgFileRead]
          | none => (.error noProjectMsg, [.rcFileRead, .cfgFileRead])

/-- The resolution order of `resolveProject`, as a value: first truthy among
the explicit flag, the `.firebaserc` default, and the config `project` key. -/
def chosenProjectId (explicit rcDefault : Option String) (cfgProject : Option JsValue) :
    Option String :=
  match truthyOpt explicit with
  | some s => some s
  | none =>
    match truthyOpt rcDefault with
    | some s => some s
    | none => (truthyVal cfgProject).map jsValueToString

/-- Environment seen by `resolveApp` / `listApps`. -/
structure AppEnv where
  fcc : FileContent
  cwd : String
  androidApi : String → MgmtFetch (Option (List AndroidApp))
  iosApi : String → MgmtFetch (Option (List IosApp))

def toFirebaseAppAndroid (a : AndroidApp) : FirebaseApp :=
  { platform := "ANDROID", appId := a.appId, displayName := a.displayName.getD "",
    packageName := a.packageName, bundleId := none }

def toFirebaseAppIos (a : IosApp) : FirebaseApp :=
  { platform := "IOS", appId := a.appId, displayName := a.displayName.getD "",
    packageName := none, bundleId := a.bundleId }

/-- `listApps`: requests `androidApps` and `iosApps` (both are issued —
`Promise.all`), concatenates Android apps then iOS apps.  An absent `apps`
field contributes nothing.  If a request failed its error is surfaced,
Android first, matching the rejection the source observes. -/
def listApps (projectNumber : String) (env : AppEnv) :
    Except String (List FirebaseApp) × List MgmtEff :=
  let pathA := "projects/" ++ projectNumber ++ "/androidApps"
  let pathI := "projects/" ++ projectNumber ++ "/iosApps"
  let tr : List MgmtEff := [.apiGet pathA, .apiGet pathI]
  match firebaseApiGet (env.androidApi pathA), firebaseApiGet (env.iosApi pathI) with
  | .error e, _ => (.error e, tr)
  | .ok _, .error e => (.error e, tr)
  | .ok aApps, .ok iApps =>
    (.ok ((aApps.getD []).map toFirebaseAppAndroid ++
          (iApps.getD []).map toFirebaseAppIos), tr)

def noAppDeterminedMsg : String :=
  "Could not determine the Firebase app. Provide --app <appId>, or set it in .fcc.json, or provide --project so apps can be listed."

def noAppsFoundMsg (projectNumber : String) : String :=
  "No apps found in Firebase project \"" ++ projectNumber ++ "\". " ++
    "Register an app in the Firebase Console first."

/-- `resolveApp`: explicit flag, else local config `app` key, else the first
entry of the live app list of the project. -/
def resolveApp (explicit : Option String) (projectNumber : Option String)
    (env : AppEnv) : Except String String × List MgmtEff :=
  match truthyOpt explicit with
  | some a => (.ok a, [])
  | none =>
    match readConfig env.cwd env.fcc with
    | .error e => (.error e, [.cfgFileRead])
    | .ok cfgOpt =>
      match truthyVal (cfgOpt.bind fun o => objGet o "app") with
      | some v => (.ok (jsValueToString v), [.cfgFileRead])
      | none =>
        match truthyOpt projectNumber with
        | none => (.error noAppDeterminedMsg, [.cfgFileRead])
        | some pn =>
          let (r, tr) := listApps pn env
          match r with
          | .error e => (.error e, .cfgFileRead :: tr)
          | .ok apps =>
            match apps with
            | [] => (.error (noAppsFoundMsg pn), .cfgFileRead :: tr)
            | a :: _ => (.ok a.appId, .cfgFileRead :: tr)

/-! ## Crashlytics API client (`src/api/crashlytics-client.ts`)

`CrashlyticsClient.request` with its status-code → error mapping.  Errors are
either a `CrashlyticsApiError` (message, statusCode, statusText) or a plain
`Error` (message only).  A 204 response yields no payload. -/

structure CrashlyticsClient where
  projectNumber : String
  appId : String
deriving DecidableEq, Repr

def CrashlyticsClient.resourcePath (c : CrashlyticsClient) : String :=
  "projects/" ++ c.projectNumber ++ "/apps/" ++ c.appId

inductive CrashError where
  | apiError (message : String) (statusCode : Nat) (statusText : String)
  | plainError (message : String)
deriving DecidableEq, Repr

inductive CrashFetch (α : Type) where
  | netErr (msg : String)
  | resp (status : Nat) (statusText : String) (bodyText : String) (parsed : Option α)

/-- The 404 message of `CrashlyticsClient.request`. -/
def crashNotFoundMessage (projectNumber appId : String) : String :=
  "Resource not found. Verify that project \"" ++ projectNumber ++
    "\" and app \"" ++ appId ++ "\" exist and are correct."

/-- `CrashlyticsClient.request` on the outcome of its single fetch. -/
def CrashlyticsClient.request {α : Type} (c : CrashlyticsClient) (path : String)
    (f : CrashFetch α) : Except CrashError (Option α) :=
  match f with
  | .netErr m =>
    .error (.plainError ("Network error while calling Crashlytics API: " ++ m))
  | .resp status stext body parsed =>
    if httpOk status then
      if status = 204 then .ok none
      else
        match parsed with
        | none =>
          .error (.plainError "Failed to parse JSON response from the Crashlytics API.")
        | some a => .ok (some a)
    else
      match status with
      | 401 =>
        .error (.apiError "Authentication failed. Your access token is invalid or expired. Try running `firebase login` again." 401 stext)
      | 403 =>
        .error (.apiError "Access denied. You do not have permission to access this resource. Check that your account has the required Firebase Crashlytics permissions." 403 stext)
      | 404 =>
        .error (.apiError (crashNotFoundMessage c.projectNumber c.appId) 404 stext)
      | 429 =>
        .error (.apiError "Rate limit exceeded. Too many requests to the Crashlytics API. Please wait a moment and try again." 429 stext)
      | s =>
        .error (.apiError ("Crashlytics API error (" ++ toString s ++ "): " ++ body) s stext)

/-- Issue payload (scalar fields; the open-ended `variants` array and index
signature carry no logic and are omitted). -/
structure Issue where
  id : String
  title : String
  subtitle : String
  errorType : String
  sampleEvent : Option String
  uri : Option String
  firstSeenVersion : Option String
  lastSeenVersion : Option String
  state : String
  name : String
deriving DecidableEq, Repr

/-- The request path `getIssue` uses. -/
def CrashlyticsClient.getIssuePath (c : CrashlyticsClient) (issueId : String) : String :=
  c.resourcePath ++ "/issues/" ++ issueId

/-- `CrashlyticsClient.getIssue`. -/
def CrashlyticsClient.getIssue (c : CrashlyticsClient) (issueId : String)
    (f : CrashFetch Issue) : Except CrashError (Option Issue) :=
  c.request (c.getIssuePath issueId) f

/-! ## Helper lemmas -/

theorem isLead_self_append (n s : List Char) : isLead n (n ++ s) = true := by
  induction n with
  | nil => rfl
  | cons a as ih => simp [isLead, ih]

theorem hasSub_append_mid (p n s : List Char) (hn : n ≠ []) :
    hasSub (p ++ (n ++ s)) n = true := by
  induction p with
  | nil =>
    cases n with
    | nil => exact absurd rfl hn
    | cons a as =>
      have h1 : isLead (a :: as) (a :: (as ++ s)) = true := isLead_self_append (a :: as) s
      simp [hasSub, h1]
  | cons a as ih => simp [hasSub, ih]

theorem strContains_append (p n s : String) (hn : n ≠ "") :
    strContains (p ++ n ++ s) n = true := by
  have hdata : n.data ≠ [] := by
    intro h
    apply hn
    cases n with
    | mk d => simp at h; simp [h]
  show hasSub ((p ++ n ++ s).data) n.data = true
  have : (p ++ n ++ s).data = p.data ++ (n.data ++ s.data) := by
    simp [String.data_append]
  rw [this]
  exact hasSub_append_mid _ _ _ hdata

theorem objGet_objSet_self (o : Obj) (k : String) (v : JsValue) :
    objGet (objSet o k v) k = some v := by
  induction o with
  | nil => simp [objSet, objGet]
  | cons p t ih =>
    obtain ⟨k', w⟩ := p
    by_cases h : k' = k
    · simp [objSet, objGet, h]
    · simp [objSet, objGet, h, ih]

theorem objGet_objSet_ne (o : Obj) (k k' : String) (v : JsValue) (h : k' ≠ k) :
    objGet (objSet o k v) k' = objGet o k' := by
  have hk : ¬ k = k' := fun hh => h hh.symm
  induction o with
  | nil => simp [objSet, objGet, hk]
  | cons p t ih =>
    obtain ⟨k1, w⟩ := p
    by_cases h1 : k1 = k
    · subst h1
      simp [objSet, objGet, hk]
    · simp [objSet, objGet, h1, ih]

theorem objGet_eq_none_of_not_mem (o : Obj) (k : String)
    (h : k ∉ o.map Prod.fst) : objGet o k = none := by
  induction o with
  | nil => rfl
  | cons p t ih =>
    obtain ⟨k', v⟩ := p
    have h1 : ¬ k' = k := by
      intro hh
      exact h (by simp [hh])
    have h2 : k ∉ t.map Prod.fst := by
      intro hh
      exact h (by simp [hh])
    simp [objGet, h1, ih h2]

theorem objGet_foldl_objSet (l : List (String × JsValue)) (acc : Obj) (k : String)
    (hnd : (l.map Prod.fst).Nodup) :
    objGet (l.foldl (fun acc p => objSet acc p.1 p.2) acc) k =
      match objGet l k with
      | some v => some v
      | none => objGet acc k := by
  induction l generalizing acc with
  | nil => simp [objGet]
  | cons p t ih =>
    obtain ⟨k1, v1⟩ := p
    simp only [List.map_cons, List.nodup_cons] at hnd
    simp only [List.foldl_cons]
    rw [ih _ hnd.2]
    by_cases hk : k1 = k
    · subst hk
      have : objGet t k1 = none :=
        objGet_eq_none_of_not_mem t k1 hnd.1
      simp [objGet, this, objGet_objSet_self]
    · have hne : k ≠ k1 := fun hh => hk hh.symm
      simp [objGet, hk, objGet_objSet_ne _ _ _ _ hne]

theorem objGet_mergeObjects (g l : Obj) (k : String)
    (hg : (g.map Prod.fst).Nodup) (hl : (l.map Prod.fst).Nodup) :
    objGet (mergeObjects g l) k =
      match objGet l k with
      | some v => some v
      | none => objGet g k := by
  unfold mergeObjects
  rw [objGet_foldl_objSet _ _ _ hl, objGet_foldl_objSet _ _ _ hg]
  cases objGet l k <;> cases hgk : objGet g k <;> simp [objGet]

theorem strContains_empty (hay : String) : strContains hay "" = true := by
  show hasSub hay.data [] = true
  cases hay.data with
  | nil => rfl
  | cons a as => simp [hasSub, isLead]

theorem truthyOpt_some_ne (o : Option String) (s : String)
    (h : truthyOpt o = some s) : s ≠ "" := by
  cases o with
  | none => simp [truthyOpt] at h
  | some t =>
    by_cases ht : t = "" <;> simp [truthyOpt, ht] at h
    subst h
    exact ht

/-- A successful `refreshAccessToken` stores the returned token in the
cache, and that token is nonempty. -/
theorem refreshAccessToken_ok_state (rt : String) (st : AuthState) (now : Int)
    (f : TokenFetch) (tok : String) (st' : AuthState)
    (h : refreshAccessToken rt st now f = (.ok tok, st')) :
    st'.cachedAccessToken = some tok ∧ tok ≠ "" := by
  cases f with
  | netErr m => simp [refreshAccessToken] at h
  | resp status errParse okParse =>
    simp only [refreshAccessToken] at h
    by_cases hok : httpOk status = true
    · rw [if_pos hok] at h
      cases okParse with
      | none => simp at h
      | some body =>
        obtain ⟨atok, texp⟩ := body
        cases atok with
        | none => simp at h
        | some t =>
          by_cases hts : t = ""
          · simp [hts] at h
          · simp [hts] at h
            obtain ⟨h1, h2⟩ := h
            subst h1
            rw [← h2]
            exact ⟨rfl, hts⟩
    · rw [if_neg hok] at h
      simp at h

/-- Every failure of `refreshAccessToken` leaves the cache state unchanged. -/
theorem refreshAccessToken_error_state (rt : String) (st : AuthState) (now : Int)
    (f : TokenFetch) (e : String) (st' : AuthState)
    (h : refreshAccessToken rt st now f = (.error e, st')) :
    st' = st := by
  cases f with
  | netErr m =>
    simp [refreshAccessToken] at h
    exact h.2.symm
  | resp status errParse okParse =>
    simp only [refreshAccessToken] at h
    by_cases hok : httpOk status = true
    · rw [if_pos hok] at h
      cases okParse with
      | none =>
        simp at h
        exact h.2.symm
      | some body =>
        obtain ⟨atok, texp⟩ := body
        cases atok with
        | none =>
          simp at h
          exact h.2.symm
        | some t =>
          by_cases hts : t = ""
          · simp [hts] at h
            exact h.2.symm
          · simp [hts] at h
    · rw [if_neg hok] at h
      simp at h
      exact h.2.symm

/-- A successful `getAccessToken` always leaves the returned token in the
cache, and that token is nonempty. -/
theorem getAccessToken_ok_state (st : AuthState) (now : Int) (home : String)
    (file : CfgFileRead) (f : TokenFetch) (tok : String) (st1 : AuthState)
    (tr : List AuthEff)
    (h : getAccessToken st now home file f = (.ok tok, st1, tr)) :
    st1.cachedAccessToken = some tok ∧ tok ≠ "" := by
  unfold getAccessToken at h
  by_cases hc : jsTruthy st.cachedAccessToken = true ∧ now < st.tokenExpiresAt
  · rw [if_pos hc] at h
    cases hcached : st.cachedAccessToken with
    | none => rw [hcached] at hc; simp [jsTruthy] at hc
    | some s =>
      rw [hcached] at h hc
      by_cases hs : s = ""
      · simp [jsTruthy, hs] at hc
      · have h1 := congrArg (fun x => x.1) h
        have h2 := congrArg (fun x => x.2.1) h
        simp at h1 h2
        subst h1
        exact ⟨by rw [← h2, hcached], hs⟩
  · rw [if_neg hc] at h
    cases hrt : readRefreshToken home file with
    | error e => simp only [hrt] at h; simp at h
    | ok rt =>
      simp only [hrt] at h
      rcases hrf : refreshAccessToken rt st now f with ⟨r, st'⟩
      simp only [hrf] at h
      simp at h
      obtain ⟨h1, h2, h3⟩ := h
      exact refreshAccessToken_ok_state rt st now f tok st1
        (hrf.trans (by rw [h1, h2]))

/-! ## Claims about the config store -/

/-- C5: the merged configuration returned by `getMergedConfig` is the shallow
union of the global and the local config records, and every key present in
both records resolves to the local value. -/
theorem claim_c5_merged_union (cwd home : String) (st : Store) (g l : Obj)
    (hg : st.globalFile = .obj g) (hl : st.localFile = .obj l)
    (hgnd : (g.map Prod.fst).Nodup) (hlnd : (l.map Prod.fst).Nodup) :
    getMergedConfig cwd home st = .ok (mergeObjects g l) ∧
    (∀ k, objGet (mergeObjects g l) k =
      match objGet l k with
      | some v => some v
      | none => objGet g k) ∧
    (∀ k vl vg, objGet l k = some vl → objGet g k = some vg →
      objGet (mergeObjects g l) k = some vl) := by
  refine ⟨?_, ?_, ?_⟩
  · simp [getMergedConfig, hg, hl, readConfig, readGlobalConfig]
  · intro k
    exact objGet_mergeObjects g l k hgnd hlnd
  · intro k vl vg hvl hvg
    rw [objGet_mergeObjects g l k hgnd hlnd, hvl]

/-- C5 witness at the spec's example: global `defaultType = "fatal"`, local
`defaultType = "anr"`, merged value is the local `"anr"`. -/
theorem claim_c5_witness :
    getMergedConfig "/w" "/h"
        ⟨.obj [("defaultType", JsValue.str "anr")],
         .obj [("defaultType", JsValue.str "fatal")]⟩ =
      .ok (mergeObjects [("defaultType", JsValue.str "fatal")]
            [("defaultType", JsValue.str "anr")]) ∧
    objGet (mergeObjects [("defaultType", JsValue.str "fatal")]
        [("defaultType", JsValue.str "anr")]) "defaultType" =
      some (JsValue.str "anr") := by
  have h := claim_c5_merged_union "/w" "/h"
      ⟨.obj [("defaultType", JsValue.str "anr")],
       .obj [("defaultType", JsValue.str "fatal")]⟩
      [("defaultType", JsValue.str "fatal")] [("defaultType", JsValue.str "anr")]
      rfl rfl (by decide) (by decide)
  exact ⟨h.1, h.2.2 "defaultType" (JsValue.str "anr") (JsValue.str "fatal") rfl rfl⟩

/-- C4: for every known config key, a value accepted by `coerceConfigValue`
has the key's declared scalar type, and writing it to either scope and then
reading that scope back returns exactly the coerced value; a value that
`Number(...)` maps to NaN for a numeric key is rejected with the
InvalidValue message. -/
theorem claim_c4_coerce_write_read (cwd home : String) (st : Store)
    (key value ty : String) (hk : KNOWN_CONFIG_KEYS key = some ty) :
    (∀ v, coerceConfigValue key value = .ok v → v.typeOf = ty) ∧
    (∀ v st', coerceConfigValue key value = .ok v →
      writeConfig cwd st key v = .ok st' →
      ∃ o, readConfig cwd st'.localFile = .ok (some o) ∧ objGet o key = some v) ∧
    (∀ v st', coerceConfigValue key value = .ok v →
      writeGlobalConfig home st key v = .ok st' →
      ∃ o, readGlobalConfig home st'.globalFile = .ok (some o) ∧ objGet o key = some v) ∧
    (ty = "number" → jsNumber value = none →
      coerceConfigValue key value =
        .error ("Value for \"" ++ key ++ "\" must be a number, got \"" ++ value ++ "\".")) := by
  have hty : ty = "string" ∨ ty = "number" := by
    unfold KNOWN_CONFIG_KEYS at hk
    split_ifs at hk <;> simp_all
  refine ⟨?_, ?_, ?_, ?_⟩
  · intro v hv
    rcases hty with h | h <;> subst h
    · simp only [coerceConfigValue, hk] at hv
      simp at hv
      rw [← hv]
      rfl
    · simp only [coerceConfigValue, hk] at hv
      cases hjn : jsNumber value with
      | none => simp [hjn] at hv
      | some q =>
        simp [hjn] at hv
        rw [← hv]
        rfl
  · intro v st' hco hw
    unfold writeConfig at hw
    cases hrc : readConfig cwd st.localFile with
    | error e => simp [hrc] at hw
    | ok ex =>
      simp only [hrc] at hw
      simp at hw
      refine ⟨objSet (ex.getD []) key v, ?_, objGet_objSet_self _ _ _⟩
      rw [← hw]
      rfl
  · intro v st' hco hw
    unfold writeGlobalConfig at hw
    cases hrc : readGlobalConfig home st.globalFile with
    | error e => simp [hrc] at hw
    | ok ex =>
      simp only [hrc] at hw
      simp at hw
      refine ⟨objSet (ex.getD []) key v, ?_, objGet_objSet_self _ _ _⟩
      rw [← hw]
      rfl
  · intro h1 h2
    subst h1
    simp [coerceConfigValue, hk, h2]

/-- C4 witness: writing `"50"` to the numeric key `defaultLimit` stores the
number `50` (read back as a number, not the string `"50"`), and coercing the
non-numeric `"abc"` for it fails with the InvalidValue message. -/
theorem claim_c4_witness :
    coerceConfigValue "defaultLimit" "50" = .ok (JsValue.num 50) ∧
    (JsValue.num 50).typeOf = "number" ∧
    (∃ o, readConfig "/w" (FileContent.obj [("defaultLimit", JsValue.num 50)]) =
        .ok (some o) ∧ objGet o "defaultLimit" = some (JsValue.num 50)) ∧
    coerceConfigValue "defaultLimit" "abc" =
      .error ("Value for \"defaultLimit\" must be a number, got \"abc\".") := by
  have h := claim_c4_coerce_write_read "/w" "/h" ⟨.absent, .absent⟩
      "defaultLimit" "50" "number" rfl
  have h2 := claim_c4_coerce_write_read "/w" "/h" ⟨.absent, .absent⟩
      "defaultLimit" "abc" "number" rfl
  refine ⟨by rfl, rfl, ?_, h2.2.2.2 rfl (by rfl)⟩
  exact h.2.1 (JsValue.num 50)
      ⟨FileContent.obj [("defaultLimit", JsValue.num 50)], FileContent.absent⟩
      (by rfl) (by rfl)

/-- C9: a local write rewrites only the local file — the global file is
untouched, every other key of the local file keeps its value, and the object
written is derived from the local file's previous content alone (never a
merged object); symmetrically for a global write. -/
theorem claim_c9_write_targets_one_file (cwd home key : String) (v : JsValue)
    (st : Store) :
    (∀ st', writeConfig cwd st key v = .ok st' →
      st'.globalFile = st.globalFile ∧
      ∃ exOpt, readConfig cwd st.localFile = .ok exOpt ∧
        st'.localFile = .obj (objSet (exOpt.getD []) key v) ∧
        objGet (objSet (exOpt.getD []) key v) key = some v ∧
        ∀ k', k' ≠ key →
          objGet (objSet (exOpt.getD []) key v) k' = objGet (exOpt.getD []) k') ∧
    (∀ st', writeGlobalConfig home st key v = .ok st' →
      st'.localFile = st.localFile ∧
      ∃ exOpt, readGlobalConfig home st.globalFile = .ok exOpt ∧
        st'.globalFile = .obj (objSet (exOpt.getD []) key v) ∧
        objGet (objSet (exOpt.getD []) key v) key = some v ∧
        ∀ k', k' ≠ key →
          objGet (objSet (exOpt.getD []) key v) k' = objGet (exOpt.getD []) k') := by
  constructor
  · intro st' hw
    unfold writeConfig at hw
    cases hrc : readConfig cwd st.localFile with
    | error e => simp [hrc] at hw
    | ok ex =>
      simp only [hrc] at hw
      simp at hw
      rw [← hw]
      exact ⟨rfl, ex, rfl, rfl, objGet_objSet_self _ _ _,
        fun k' hk' => objGet_objSet_ne _ _ _ _ hk'⟩
  · intro st' hw
    unfold writeGlobalConfig at hw
    cases hrc : readGlobalConfig home st.globalFile with
    | error e => simp [hrc] at hw
    | ok ex =>
      simp only [hrc] at hw
      simp at hw
      rw [← hw]
      exact ⟨rfl, ex, rfl, rfl, objGet_objSet_self _ _ _,
        fun k' hk' => objGet_objSet_ne _ _ _ _ hk'⟩

/-- C9 witness: writing `app = "z"` locally over an existing local key `a`
leaves the global file and the other local key untouched. -/
theorem claim_c9_witness :
    writeConfig "/w" ⟨.obj [("a", JsValue.str "x")], .obj [("b", JsValue.str "y")]⟩
        "app" (JsValue.str "z") =
      .ok ⟨.obj [("a", JsValue.str "x"), ("app", JsValue.str "z")],
           .obj [("b", JsValue.str "y")]⟩ ∧
    (⟨.obj [("a", JsValue.str "x"), ("app", JsValue.str "z")],
      .obj [("b", JsValue.str "y")]⟩ : Store).globalFile =
      (⟨.obj [("a", JsValue.str "x")], .obj [("b", JsValue.str "y")]⟩ : Store).globalFile ∧
    objGet [("a", JsValue.str "x"), ("app", JsValue.str "z")] "a" =
      objGet [("a", JsValue.str "x")] "a" := by
  have h := (claim_c9_write_targets_one_file "/w" "/h" "app" (JsValue.str "z")
      ⟨.obj [("a", JsValue.str "x")], .obj [("b", JsValue.str "y")]⟩).1
      ⟨.obj [("a", JsValue.str "x"), ("app", JsValue.str "z")],
       .obj [("b", JsValue.str "y")]⟩ (by rfl)
  exact ⟨by rfl, h.1, by rfl⟩

/-! ## Claims about the token cache -/

/-- C2: after any successful `getAccessToken` call, a second call at a time
still before the stored expiry performs no network call and no file read
(empty effect trace) and returns the identical token string, regardless of
what the file system or the network would answer. -/
theorem claim_c2_cached_token_no_io (st : AuthState) (n1 n2 : Int)
    (home1 home2 : String) (file1 file2 : CfgFileRead) (f1 f2 : TokenFetch)
    (tok : String) (st1 : AuthState) (tr1 : List AuthEff)
    (h1 : getAccessToken st n1 home1 file1 f1 = (.ok tok, st1, tr1))
    (h2 : n2 < st1.tokenExpiresAt) :
    getAccessToken st1 n2 home2 file2 f2 = (.ok tok, st1, []) := by
  obtain ⟨hc, hne⟩ := getAccessToken_ok_state st n1 home1 file1 f1 tok st1 tr1 h1
  unfold getAccessToken
  rw [if_pos ⟨by simp [jsTruthy, hc, hne], h2⟩]
  rw [hc]
  rfl

/-- C2 witness: a cold call that refreshed at time `0` with TTL `3600`
seconds, followed by a call at time `100`, returns the same token with an
empty effect trace even against a dead network and a missing config file. -/
theorem claim_c2_witness :
    getAccessToken ⟨some "tokA", 3540000⟩ 100 "/h2" .missing (.netErr "down") =
      (.ok "tokA", ⟨some "tokA", 3540000⟩, []) := by
  exact claim_c2_cached_token_no_io ⟨none, 0⟩ 0 100 "/h1" "/h2"
      (.parsed (some "r")) .missing
      (.resp 200 none (some ⟨some "tokA", 3600⟩)) (.netErr "down")
      "tokA" ⟨some "tokA", 3540000⟩ [.fsRead, .netCall]
      (by rfl) (by norm_num)

/-- C6: when a cold `getAccessToken` succeeds through a refresh, the stored
expiry is the call time plus the server TTL (seconds) minus the 60-second
safety margin, in milliseconds; and once the clock reaches that expiry, the
next call whose config-file read succeeds performs exactly one refresh
network call (trace `[fsRead, netCall]`). -/
theorem claim_c6_expiry_then_single_refresh (st : AuthState) (n1 : Int)
    (home : String) (file : CfgFileRead) (status : Nat)
    (errParse : Option TokenErrorBody) (body : TokenOkBody)
    (tok : String) (st1 : AuthState) (tr1 : List AuthEff)
    (hmiss : ¬ (jsTruthy st.cachedAccessToken = true ∧ n1 < st.tokenExpiresAt))
    (h1 : getAccessToken st n1 home file (.resp status errParse (some body)) =
      (.ok tok, st1, tr1)) :
    st1.tokenExpiresAt = n1 + (body.expiresIn - 60) * 1000 ∧
    ∀ (n2 : Int) (home2 : String) (file2 : CfgFileRead) (f2 : TokenFetch) (rt : String),
      st1.tokenExpiresAt ≤ n2 →
      readRefreshToken home2 file2 = .ok rt →
      (getAccessToken st1 n2 home2 file2 f2).2.2 = [.fsRead, .netCall] := by
  constructor
  · unfold getAccessToken at h1
    rw [if_neg hmiss] at h1
    cases hrt : readRefreshToken home file with
    | error e => simp only [hrt] at h1; simp at h1
    | ok rt =>
      simp only [hrt] at h1
      rcases hrf : refreshAccessToken rt st n1 (.resp status errParse (some body)) with ⟨r, st'⟩
      simp only [hrf] at h1
      simp at h1
      obtain ⟨hr, hst, htr⟩ := h1
      subst hst
      simp only [refreshAccessToken] at hrf
      by_cases hok : httpOk status = true
      · rw [if_pos hok] at hrf
        obtain ⟨atok, texp⟩ := body
        cases atok with
        | none => simp at hrf; rw [hr] at hrf; simp at hrf
        | some t =>
          by_cases hts : t = ""
          · simp [hts] at hrf
            rw [hr] at hrf
            simp at hrf
          · simp [hts] at hrf
            rw [← hrf.2]
      · rw [if_neg hok] at hrf
        simp at hrf
        rw [hr] at hrf
        simp at hrf
  · intro n2 home2 file2 f2 rt hle hrt
    unfold getAccessToken
    rw [if_neg (by
      rintro ⟨-, hlt⟩
      exact absurd hle (not_le.mpr hlt))]
    rw [hrt]

/-- C6 witness: a refresh at time `0` with `expires_in = 3600` stores expiry
`3540000` ms; a later call at exactly that time, with a readable refresh
token, performs exactly one refresh network call. -/
theorem claim_c6_witness :
    (⟨some "tokA", (3540000 : Int)⟩ : AuthState).tokenExpiresAt =
      0 + ((3600 : Int) - 60) * 1000 ∧
    (getAccessToken ⟨some "tokA", 3540000⟩ 3540000 "/h" (.parsed (some "r"))
        (.netErr "down")).2.2 = [AuthEff.fsRead, AuthEff.netCall] := by
  have h := claim_c6_expiry_then_single_refresh ⟨none, 0⟩ 0 "/h"
      (.parsed (some "r")) 200 none ⟨some "tokA", 3600⟩ "tokA"
      ⟨some "tokA", 3540000⟩ [.fsRead, .netCall]
      (by simp [jsTruthy]) (by rfl)
  exact ⟨h.1, h.2 3540000 "/h" (.parsed (some "r")) (.netErr "down") "r"
      (le_refl _) (by rfl)⟩

/-- C8: when the sibling firebase-tools config file exists but holds invalid
JSON, a cache-miss `getAccessToken` fails with the parse error naming the
exact config-file path, having performed only the file read — no network
call. -/
theorem claim_c8_corrupt_sibling_config (st : AuthState) (now : Int)
    (home : String) (f : TokenFetch)
    (hmiss : ¬ (jsTruthy st.cachedAccessToken = true ∧ now < st.tokenExpiresAt)) :
    getAccessToken st now home .malformed f =
      (.error ("Failed to parse Firebase CLI config at " ++
          getFirebaseConfigPath home ++
          ". The file may be corrupted. Try running `firebase login` again."),
       st, [.fsRead]) ∧
    strContains ("Failed to parse Firebase CLI config at " ++
        getFirebaseConfigPath home ++
        ". The file may be corrupted. Try running `firebase login` again.")
      (getFirebaseConfigPath home) = true ∧
    AuthEff.netCall ∉ [AuthEff.fsRead] := by
  refine ⟨?_, ?_, by simp⟩
  · unfold getAccessToken
    rw [if_neg hmiss]
    rfl
  · apply strContains_append
    intro h
    have := congrArg String.data h
    simp [getFirebaseConfigPath, String.data_append] at this
/-- C8 witness: with an empty cache, home `/home/u`, and a live network that
would answer, the corrupt-file failure happens with only a file read. -/
theorem claim_c8_witness :
    getAccessToken ⟨none, 0⟩ 5 "/home/u" .malformed
        (.resp 200 none (some ⟨some "tok", 3600⟩)) =
      (.error ("Failed to parse Firebase CLI config at " ++
          getFirebaseConfigPath "/home/u" ++
          ". The file may be corrupted. Try running `firebase login` again."),
       ⟨none, 0⟩, [.fsRead]) ∧
    strContains ("Failed to parse Firebase CLI config at " ++
        getFirebaseConfigPath "/home/u" ++
        ". The file may be corrupted. Try running `firebase login` again.")
      (getFirebaseConfigPath "/home/u") = true := by
  have h := claim_c8_corrupt_sibling_config ⟨none, 0⟩ 5 "/home/u"
      (.resp 200 none (some ⟨some "tok", 3600⟩)) (by simp [jsTruthy])
  exact ⟨h.1, h.2.1⟩

/-- C10: every failing `getAccessToken` call leaves the in-memory token cache
(`cachedAccessToken` and `tokenExpiresAt`) exactly as it was — the cache is
mutated only on a successful token response carrying an access token. -/
theorem claim_c10_failure_preserves_cache (st : AuthState) (now : Int)
    (home : String) (file : CfgFileRead) (f : TokenFetch) (e : String)
    (h : (getAccessToken st now home file f).1 = .error e) :
    (getAccessToken st now home file f).2.1 = st := by
  unfold getAccessToken at h ⊢
  by_cases hc : jsTruthy st.cachedAccessToken = true ∧ now < st.tokenExpiresAt
  · rw [if_pos hc] at h
    simp at h
  · rw [if_neg hc] at h ⊢
    cases hrt : readRefreshToken home file with
    | error e2 => simp only [hrt]
    | ok rt =>
      simp only [hrt] at h ⊢
      rcases hrf : refreshAccessToken rt st now f with ⟨r, st'⟩
      simp only [hrf] at h ⊢
      replace h : r = .error e := h
      show st' = st
      subst h
      exact refreshAccessToken_error_state rt st now f e st' hrf

/-- C10 witness: a failing call (missing sibling config) leaves a concrete
cache state untouched. -/
theorem claim_c10_witness :
    (getAccessToken ⟨none, 7⟩ 9 "/h" .missing (.netErr "down")).2.1 = ⟨none, 7⟩ := by
  exact claim_c10_failure_preserves_cache ⟨none, 7⟩ 9 "/h" .missing (.netErr "down")
    "Firebase CLI config not found. Run `firebase login` first to authenticate." (by rfl)

/-! ## Claims about the Crashlytics client and the resolvers -/

theorem strContains_mid1 (l1 n l2 m l3 : String) (hn : n ≠ "") :
    strContains (l1 ++ n ++ l2 ++ m ++ l3) n = true := by
  have he : l1 ++ n ++ l2 ++ m ++ l3 = l1 ++ n ++ (l2 ++ (m ++ l3)) := by
    simp [String.append_assoc]
  rw [he]
  exact strContains_append l1 n _ hn

/-- C1 counterexample: on a 404 for `getIssue("abc")` with project `p1` and
app `a1`, the error is a 404 `CrashlyticsApiError`, but its message contains
neither the resource path of the request nor even the shorter resource-path
of the client — only the bare identifiers appear. -/
theorem claim_c1_counterexample :
    CrashlyticsClient.getIssue ⟨"p1", "a1"⟩ "abc"
        (.resp 404 "Not Found" "\x7b\"error\":\"not found\"\x7d" none) =
      .error (.apiError (crashNotFoundMessage "p1" "a1") 404 "Not Found") ∧
    strContains (crashNotFoundMessage "p1" "a1")
      (CrashlyticsClient.getIssuePath ⟨"p1", "a1"⟩ "abc") = false ∧
    strContains (crashNotFoundMessage "p1" "a1")
      (CrashlyticsClient.resourcePath ⟨"p1", "a1"⟩) = false := by
  refine ⟨rfl, by decide, by decide⟩

/-- C1 (amended): when the Crashlytics API responds to `getIssue` with HTTP
404, the client fails with a `CrashlyticsApiError` carrying status code 404
whose message contains the literal project and app identifiers of the
request (the resource path itself does not appear in the message). -/
theorem claim_c1_amended_404_not_found (pn app issueId stext body : String)
    (p : Option Issue) :
    CrashlyticsClient.getIssue ⟨pn, app⟩ issueId (.resp 404 stext body p) =
      .error (.apiError (crashNotFoundMessage pn app) 404 stext) ∧
    strContains (crashNotFoundMessage pn app) pn = true ∧
    strContains (crashNotFoundMessage pn app) app = true := by
  refine ⟨rfl, ?_, ?_⟩
  · by_cases hpn : pn = ""
    · subst hpn
      exact strContains_empty _
    · exact strContains_mid1 "Resource not found. Verify that project \"" pn
        "\" and app \"" app "\" exist and are correct." hpn
  · by_cases happ : app = ""
    · subst happ
      exact strContains_empty _
    · exact strContains_append
        ("Resource not found. Verify that project \"" ++ pn ++ "\" and app \"")
        app "\" exist and are correct." happ

/-- C3: `resolveProject` resolves the project id as the first truthy value
among the explicit argument, the `.firebaserc` default, and the local config
`project` key.  If none is found it fails with the Unresolvable message and
performs no Management API call; whenever an id is found, its full identity
comes from exactly one Management API call at `projects/{id}` — the raw id
is never returned as a result. -/
theorem claim_c3_resolve_project (explicit : Option String) (env : ResolveEnv)
    (rcDefault : Option String) (cfgOpt : Option Obj)
    (hrc : env.rc = .parsed rcDefault)
    (hcfg : readConfig env.cwd env.fcc = .ok cfgOpt) :
    match chosenProjectId explicit rcDefault (cfgOpt.bind fun o => objGet o "project") with
    | none =>
      resolveProject explicit env =
        (.error noProjectMsg, [.rcFileRead, .cfgFileRead]) ∧
      countApiGets (resolveProject explicit env).2 = 0
    | some pid =>
      (resolveProject explicit env).1 =
        (firebaseApiGet (env.projectApi ("projects/" ++ pid))).map
          (fun p => { projectId := p.projectId, projectNumber := p.projectNumber,
                      displayName := p.displayName, name := p.name }) ∧
      countApiGets (resolveProject explicit env).2 = 1 := by
  unfold resolveProject chosenProjectId
  cases hex : truthyOpt explicit with
  | some pid => simp [resolveProjectFetch, countApiGets]
  | none =>
    rw [hrc]
    simp only [readFirebaseRc]
    cases hrd : truthyOpt rcDefault with
    | some pid => simp [resolveProjectFetch, countApiGets]
    | none =>
      rw [hcfg]
      cases hcv : truthyVal (cfgOpt.bind fun o => objGet o "project") with
      | some v => simp [hcv, resolveProjectFetch, countApiGets]
      | none => simp [hcv, countApiGets]

/-- C3 witness at the spec's scenario: explicit `proj-A` wins over
`.firebaserc` `proj-B` and config `proj-C`, and is exchanged through one API
call. -/
theorem claim_c3_witness :
    (resolveProject (some "proj-A")
        { rc := .parsed (some "proj-B"),
          fcc := .obj [("project", JsValue.str "proj-C")],
          cwd := "/w",
          projectApi := fun _ =>
            .resp 200 "" (some ⟨"proj-A", "111", "A", "projects/proj-A"⟩) }).1 =
      .ok ⟨"proj-A", "111", "A", "projects/proj-A"⟩ ∧
    countApiGets (resolveProject (some "proj-A")
        { rc := .parsed (some "proj-B"),
          fcc := .obj [("project", JsValue.str "proj-C")],
          cwd := "/w",
          projectApi := fun _ =>
            .resp 200 "" (some ⟨"proj-A", "111", "A", "projects/proj-A"⟩) }).2 = 1 := by
  have h := claim_c3_resolve_project (some "proj-A")
      { rc := .parsed (some "proj-B"),
        fcc := .obj [("project", JsValue.str "proj-C")],
        cwd := "/w",
        projectApi := fun _ =>
          .resp 200 "" (some ⟨"proj-A", "111", "A", "projects/proj-A"⟩) }
      (some "proj-B") (some [("project", JsValue.str "proj-C")]) rfl rfl
  exact ⟨h.1.trans (by rfl), h.2⟩

/-- C7: `resolveApp` resolves the app id as the first truthy value among the
explicit argument and the local config `app` key; otherwise it lists the
project's live apps (Android then iOS) and takes the first entry.  When that
list is empty it fails with the Unresolvable message naming the project of
the exhausted listing step. -/
theorem claim_c7_resolve_app (explicit projectNumber : Option String)
    (env : AppEnv) (cfgOpt : Option Obj)
    (hcfg : readConfig env.cwd env.fcc = .ok cfgOpt) :
    (∀ a, truthyOpt explicit = some a →
      resolveApp explicit projectNumber env = (.ok a, [])) ∧
    (truthyOpt explicit = none →
      ∀ v, truthyVal (cfgOpt.bind fun o => objGet o "app") = some v →
        resolveApp explicit projectNumber env =
          (.ok (jsValueToString v), [.cfgFileRead])) ∧
    (truthyOpt explicit = none →
      truthyVal (cfgOpt.bind fun o => objGet o "app") = none →
      ∀ pn, truthyOpt projectNumber = some pn →
      ∀ aApps iApps,
        firebaseApiGet (env.androidApi ("projects/" ++ pn ++ "/androidApps")) = .ok aApps →
        firebaseApiGet (env.iosApi ("projects/" ++ pn ++ "/iosApps")) = .ok iApps →
        ((aApps.getD []).map toFirebaseAppAndroid ++
            (iApps.getD []).map toFirebaseAppIos = [] →
          resolveApp explicit projectNumber env =
            (.error (noAppsFoundMsg pn),
             [.cfgFileRead, .apiGet ("projects/" ++ pn ++ "/androidApps"),
              .apiGet ("projects/" ++ pn ++ "/iosApps")]) ∧
          strContains (noAppsFoundMsg pn) pn = true) ∧
        (∀ a rest,
          (aApps.getD []).map toFirebaseAppAndroid ++
            (iApps.getD []).map toFirebaseAppIos = a :: rest →
          (resolveApp explicit projectNumber env).1 = .ok a.appId)) := by
  refine ⟨?_, ?_, ?_⟩
  · intro a ha
    unfold resolveApp
    rw [ha]
  · intro hex v hv
    unfold resolveApp
    rw [hex, hcfg]
    simp only
    rw [hv]
  · intro hex hv pn hpn aApps iApps hA hI
    have hres : resolveApp explicit projectNumber env =
        (match (aApps.getD []).map toFirebaseAppAndroid ++
            (iApps.getD []).map toFirebaseAppIos with
         | [] => (.error (noAppsFoundMsg pn),
            [.cfgFileRead, .apiGet ("projects/" ++ pn ++ "/androidApps"),
             .apiGet ("projects/" ++ pn ++ "/iosApps")])
         | a :: _ => (.ok a.appId,
            [.cfgFileRead, .apiGet ("projects/" ++ pn ++ "/androidApps"),
             .apiGet ("projects/" ++ pn ++ "/iosApps")])) := by
      unfold resolveApp
      rw [hex, hcfg]
      simp only [hv, hpn]
      unfold listApps
      simp only [hA, hI]
    constructor
    · intro hnil
      rw [hnil] at hres
      refine ⟨hres, ?_⟩
      have hn : pn ≠ "" := truthyOpt_some_ne projectNumber pn hpn
      show strContains (("No apps found in Firebase project \"" ++ pn ++ "\". ") ++
        "Register an app in the Firebase Console first.") pn = true
      rw [String.append_assoc ("No apps found in Firebase project \"" ++ pn) "\". "
        "Register an app in the Firebase Console first."]
      exact strContains_append "No apps found in Firebase project \"" pn _ hn
    · intro a rest hcons
      rw [hcons] at hres
      rw [hres]

/-- C7 witness: no explicit flag, no config `app`, project `pn1` with an app
list that is empty on both platforms — `resolveApp` fails with the
no-apps-found message naming `pn1`, after the two listing calls. -/
theorem claim_c7_witness :
    resolveApp none (some "pn1")
        { fcc := .absent, cwd := "/w",
          androidApi := fun _ => .resp 200 "" (some none),
          iosApi := fun _ => .resp 200 "" (some none) } =
      (.error (noAppsFoundMsg "pn1"),
       [.cfgFileRead, .apiGet "projects/pn1/androidApps",
        .apiGet "projects/pn1/iosApps"]) ∧
    strContains (noAppsFoundMsg "pn1") "pn1" = true := by
  have h := ((claim_c7_resolve_app none (some "pn1")
      { fcc := .absent, cwd := "/w",
        androidApi := fun _ => .resp 200 "" (some none),
        iosApi := fun _ => .resp 200 "" (some none) }
      none rfl).2.2 rfl rfl "pn1" rfl none none rfl rfl).1 rfl
  exact h

end Fcc
